import Mathlib

/-!
# Verification of `src/lib/mdx.ts` (ekqt/opengraphui)

Shallow embedding of the slug/id derivation, frontmatter validation and
post-listing pipeline of `src/lib/mdx.ts`, together with theorems settling
the specification claims.

Modelling conventions:
* JavaScript strings are Lean `String`s; `String.prototype.toLowerCase` is
  modelled per-character on the ASCII range (the repository only handles
  ASCII filenames/ids).
* `String.prototype.replace(pat, "")` with a string pattern removes the
  first occurrence of the literal pattern (`jsReplaceFirst`).
* The regex `/[^a-z0-9]+/g → "-"` is a left-to-right scanner collapsing
  each maximal run of non-`[a-z0-9]` characters to one hyphen
  (`collapseAux`).
* The regex `slug.match(/^[^-]*/)` always matches the (possibly empty)
  leading run of non-hyphen characters.
* Zod values are modelled by `JsVal` (a string or some other value);
  an absent field is `Option.none`.  `z.string()` accepts exactly strings;
  a custom `required_error` fires when the value is absent.
* JavaScript number coercion `+s` is modelled on integer digit strings
  (`jsToNumber`); every other string is treated as NaN (`none`).  Per the
  ECMAScript sort semantics a comparator result of NaN is treated as `+0`.
* `Array.prototype.sort` (stable since ES2019) is modelled by a stable
  insertion sort with the comparator of line 122.
-/

namespace Mdx

/-- `fileExtension` config constant (line 25 of the source). -/
def fileExtension : String := ".mdx"

/-- ASCII model of `String.prototype.toLowerCase` on one character. -/
def jsCharLower (c : Char) : Char :=
  if 'A' ≤ c ∧ c ≤ 'Z' then Char.ofNat (c.toNat + 32) else c

/-- ASCII model of `String.prototype.toLowerCase`. -/
def jsToLower (s : String) : String := ⟨s.data.map jsCharLower⟩

/-- Does `pat` occur as a prefix-anywhere (i.e. substring) of `l`? -/
def hasSub (pat : List Char) : List Char → Bool
  | [] => false
  | c :: cs => pat.isPrefixOf (c :: cs) || hasSub pat cs

/-- Remove the first occurrence of `pat` from `l`
(model of `String.prototype.replace(pat, "")` for a string pattern). -/
def jsReplaceFirstAux (pat : List Char) : List Char → List Char
  | [] => []
  | c :: cs =>
    if pat.isPrefixOf (c :: cs) then (c :: cs).drop pat.length
    else c :: jsReplaceFirstAux pat cs

/-- `s.replace(pat, "")` on strings. -/
def jsReplaceFirst (pat s : String) : String := ⟨jsReplaceFirstAux pat.data s.data⟩

/-- `filenameToId` (lines 61–63): lowercase, then remove the first
occurrence of the file extension. -/
def filenameToId (filename : String) : String :=
  jsReplaceFirst fileExtension (jsToLower filename)

/-- The character class `[a-z0-9]` of the slug regex. -/
def isSlugKeep (c : Char) : Bool :=
  ('a' ≤ c && c ≤ 'z') || ('0' ≤ c && c ≤ '9')

/-- Scanner for `replace(/[^a-z0-9]+/g, "-")`: the flag records whether we
are inside a run of non-`[a-z0-9]` characters whose hyphen was already
emitted. -/
def collapseAux : Bool → List Char → List Char
  | _, [] => []
  | inRun, c :: cs =>
    if isSlugKeep c then c :: collapseAux false cs
    else if inRun then collapseAux true cs
    else '-' :: collapseAux true cs

/-- `title.toLowerCase().replace(/[^a-z0-9]+/g, "-")` (line 67). -/
def slugedTitle (title : String) : String :=
  ⟨collapseAux false (title.data.map jsCharLower)⟩

/-- `slugify` (lines 65–70): `id + "-" + slugedTitle`. -/
def slugify (filename title : String) : String :=
  filenameToId filename ++ "-" ++ slugedTitle title

/-- The regex match `slug.match(/^[^-]*/)` (line 73): `^[^-]*` always
matches the (possibly empty) leading run of non-hyphen characters, so the
JS optional-chaining `?.[0]` never yields `undefined` on a string input. -/
def jsMatchLeading (slug : String) : Option String :=
  some ⟨slug.data.takeWhile (· ≠ '-')⟩

/-- A zod-level JavaScript value: a string, or anything else. -/
inductive JsVal where
  | jstr (s : String) : JsVal
  | jother : JsVal
deriving DecidableEq

/-- `z.string()` applied to a possibly-absent value; `msg` is the
`required_error` reported when the value is absent. -/
def zodString (msg : String) : Option JsVal → Except String String
  | none => .error msg
  | some (.jstr s) => .ok s
  | some .jother => .error "Expected string"

/-- `z.optional(z.string())` applied to a possibly-absent value. -/
def zodOptString : Option JsVal → Except String (Option String)
  | none => .ok none
  | some (.jstr s) => .ok (some s)
  | some .jother => .error "Expected string"

/-- `metaSchema.shape.id` is `z.string()`; its default `required_error`
is zod's "Required". -/
def idSchemaParse : Option String → Except String String
  | none => .error "Required"
  | some s => .ok s

/-- `getFilename` (lines 72–75), with the fallible zod parse made
explicit: match the leading non-hyphen run, parse it with the id schema,
append the file extension. -/
def getFilenameE (slug : String) : Except String String :=
  match idSchemaParse (jsMatchLeading slug) with
  | .error e => .error e
  | .ok filename => .ok (filename ++ fileExtension)

/-- A raw frontmatter header as returned by the rendering engine: each
field is possibly absent (line 29's `z.object` input). -/
structure RawHeader where
  title : Option JsVal
  date : Option JsVal
  description : Option JsVal
  author : Option JsVal
  github : Option JsVal
deriving DecidableEq

/-- The validated `FrontMatter` (line 50). -/
structure FrontMatter where
  title : String
  date : String
  description : String
  author : String
  github : Option String
deriving DecidableEq

/-- The validated `PostMeta` (line 57): `FrontMatter` extended with
`id` and `slug`. -/
structure PostMeta where
  title : String
  date : String
  description : String
  author : String
  github : Option String
  id : String
  slug : String
deriving DecidableEq

/-- `frontmatterSchema.parse` (lines 29–48): an absent header fails with
the object-level `required_error` "Post not found"; each required field is
a string with its own `required_error`; `github` is optional. -/
def parseFrontmatter : Option RawHeader → Except String FrontMatter
  | none => .error "Post not found"
  | some h => do
    let t ← zodString "Title is required" h.title
    let d ← zodString "Date is required" h.date
    let de ← zodString "Description is required" h.description
    let a ← zodString "Author is required" h.author
    let g ← zodOptString h.github
    return ⟨t, d, de, a, g⟩

/-- The raw object literal passed to `metaSchema.parse` (lines 110–118). -/
structure RawMeta where
  title : Option JsVal
  date : Option JsVal
  description : Option JsVal
  author : Option JsVal
  github : Option JsVal
  id : Option JsVal
  slug : Option JsVal
deriving DecidableEq

/-- `metaSchema.parse` (lines 52–55): the frontmatter schema extended with
`id` and `slug` as plain `z.string()` (default `required_error`
"Required"). -/
def metaParse (m : RawMeta) : Except String PostMeta := do
  let t ← zodString "Title is required" m.title
  let d ← zodString "Date is required" m.date
  let de ← zodString "Description is required" m.description
  let a ← zodString "Author is required" m.author
  let g ← zodOptString m.github
  let i ← zodString "Required" m.id
  let sl ← zodString "Required" m.slug
  return ⟨t, d, de, a, g, i, sl⟩

/-- The per-file task of `getPosts` (lines 98–119): the pair is the
filename together with the frontmatter extracted by `compileMDX`
(`none` when the header is absent). -/
def processFile (p : String × Option RawHeader) : Except String PostMeta := do
  let fm ← parseFrontmatter p.2
  metaParse
    ⟨some (.jstr fm.title), some (.jstr fm.date), some (.jstr fm.description),
     some (.jstr fm.author), fm.github.map .jstr,
     some (.jstr (filenameToId p.1)), some (.jstr (slugify p.1 fm.title))⟩

/-- `+s` — JavaScript number coercion, modelled on integer digit strings;
any other string is treated as NaN (`none`).  `+"" === 0`. -/
def jsToNumber (s : String) : Option Int :=
  if s.data.all (fun c => c.isDigit) then
    some (s.data.foldl (fun n c => 10 * n + (c.toNat - '0'.toNat)) 0)
  else none

/-- The sort comparator of line 122, `(a, b) => +b.id - +a.id`, composed
with the ECMAScript `SortCompare` rule that a NaN comparator result is
treated as `+0`. -/
def jsCompare (a b : PostMeta) : Int :=
  match jsToNumber b.id, jsToNumber a.id with
  | some y, some x => y - x
  | _, _ => 0

/-- Stable insertion used to model `Array.prototype.sort` (stable per
ES2019): an element is placed before the first later element `y` with
comparator value ≤ 0. -/
def jsInsert (x : PostMeta) : List PostMeta → List PostMeta
  | [] => [x]
  | y :: ys => if jsCompare x y ≤ 0 then x :: y :: ys else y :: jsInsert x ys

/-- Stable sort by the line-122 comparator. -/
def jsSort : List PostMeta → List PostMeta
  | [] => []
  | x :: xs => jsInsert x (jsSort xs)

/-- The join of the per-file tasks (`await Promise.all(files.map(...))`,
lines 97–120): every task must succeed; any failure propagates and no
partial result is produced. -/
def collectPosts : List (String × Option RawHeader) → Except String (List PostMeta)
  | [] => .ok []
  | f :: fs => do
    let m ← processFile f
    let rest ← collectPosts fs
    return m :: rest

/-- The pure core of `getPosts` (lines 94–123): the directory is given as
the list of (filename, extracted frontmatter) pairs in enumeration order;
all per-file tasks are joined (first failure propagates, as with
`Promise.all`) and the results are sorted by the descending-numeric-id
comparator. -/
def getPostsCore (files : List (String × Option RawHeader)) :
    Except String (List PostMeta) :=
  match collectPosts files with
  | .error e => .error e
  | .ok posts => .ok (jsSort posts)

/-- The comparison the specification claims for adjacent listing entries:
both ids coerce to numbers and the earlier one is at least the later
one.  A NaN id satisfies no comparison. -/
def jsNumGeB (a b : String) : Bool :=
  match jsToNumber a, jsToNumber b with
  | some x, some y => decide (y ≤ x)
  | _, _ => false

/-- A compiled MDX file for the `getPost` path: the extracted frontmatter
(absent when the file has no header) and the rendered body. -/
structure MdxFile where
  frontmatter : Option RawHeader
  body : String
deriving DecidableEq

/-- The pure core of `getPost` (lines 125–141): derive the filename from
the slug, read the file (`ENOENT` when absent), and return the compiled
result.  No schema parse is invoked on this path — `compileMDX<PostMeta>`
is a compile-time type assertion only. -/
def getPostCore (files : List (String × MdxFile)) (slug : String) :
    Except String MdxFile :=
  match getFilenameE slug with
  | .error e => .error e
  | .ok filename =>
    match files.lookup filename with
    | none => .error "ENOENT"
    | some file => .ok file

/-- `dropWhile` never lengthens a list (termination measure for
`specCollapse`). -/
theorem dropWhile_length_le (p : Char → Bool) (l : List Char) :
    (l.dropWhile p).length ≤ l.length := by
  induction l with
  | nil => simp [List.dropWhile]
  | cons c cs ih =>
    rw [List.dropWhile_cons]
    split
    · exact Nat.le_succ_of_le ih
    · simp

/-- Spec-side formulation of the title transformation (§4.3 of the spec):
"replace every maximal run of characters outside `[a-z0-9]` with a single
hyphen" — a kept character is copied, and a non-kept character together
with the whole maximal run it starts (`dropWhile`) becomes one hyphen. -/
def specCollapse : List Char → List Char
  | [] => []
  | c :: cs =>
    if isSlugKeep c then c :: specCollapse cs
    else '-' :: specCollapse (cs.dropWhile (fun d => !isSlugKeep d))
termination_by l => l.length
decreasing_by
  · simp
  · exact Nat.lt_succ_of_le (dropWhile_length_le _ _)

/-- Spec-side title transformation: lowercase, then collapse maximal
non-`[a-z0-9]` runs to single hyphens. -/
def specTitleTransform (title : String) : String :=
  ⟨specCollapse (title.data.map jsCharLower)⟩

/-! ## Helper lemmas -/

/-- In run state, the scanner just skips the leading non-kept run. -/
theorem collapseAux_true_eq (l : List Char) :
    collapseAux true l = collapseAux false (l.dropWhile (fun d => !isSlugKeep d)) := by
  induction l with
  | nil => rfl
  | cons c cs ih =>
    by_cases h : isSlugKeep c
    · simp [collapseAux, List.dropWhile_cons, h]
    · simp [collapseAux, List.dropWhile_cons, h, ih]

/-- The regex scanner agrees with the spec-side maximal-run description. -/
theorem collapseAux_eq_specCollapse : ∀ l, collapseAux false l = specCollapse l
  | [] => by rw [specCollapse]; rfl
  | c :: cs => by
    by_cases h : isSlugKeep c
    · rw [specCollapse]
      simp only [collapseAux, h, if_true]
      rw [collapseAux_eq_specCollapse cs]
    · rw [specCollapse]
      simp only [collapseAux, h, if_false, Bool.false_eq_true]
      rw [collapseAux_true_eq, collapseAux_eq_specCollapse (cs.dropWhile _)]
termination_by l => l.length
decreasing_by
  · simp
  · exact Nat.lt_succ_of_le (dropWhile_length_le _ _)

/-- `getFilename` never fails: the leading-segment regex always matches
and the id schema accepts every string. -/
theorem getFilenameE_eq (slug : String) :
    getFilenameE slug = .ok (⟨slug.data.takeWhile (· ≠ '-')⟩ ++ fileExtension) := rfl

/-- `takeWhile (· ≠ '-')` recovers a hyphen-free prefix exactly. -/
theorem takeWhile_append_no_hyphen (l₁ l₂ : List Char) (h : '-' ∉ l₁) :
    (l₁ ++ '-' :: l₂).takeWhile (· ≠ '-') = l₁ := by
  induction l₁ with
  | nil => simp [List.takeWhile_cons]
  | cons c cs ih =>
    have hc : c ≠ '-' := fun hc => h (hc ▸ List.mem_cons_self c cs)
    have ih' := ih (fun hm => h (List.mem_cons_of_mem _ hm))
    simp only [List.cons_append, List.takeWhile_cons]
    rw [if_pos (by simp [hc])]
    simpa using ih'

/-- Removing a pattern that does not occur is a no-op. -/
theorem jsReplaceFirstAux_of_not_hasSub (pat l : List Char)
    (h : hasSub pat l = false) : jsReplaceFirstAux pat l = l := by
  induction l with
  | nil => rfl
  | cons c cs ih =>
    rw [hasSub, Bool.or_eq_false_iff] at h
    rw [jsReplaceFirstAux, if_neg (by simp [h.1]), ih h.2]

/-- In run state, an all-non-kept tail produces nothing. -/
theorem collapseAux_true_of_all_nonkeep (l : List Char)
    (h : ∀ c ∈ l, isSlugKeep c = false) : collapseAux true l = [] := by
  induction l with
  | nil => rfl
  | cons c cs ih =>
    rw [collapseAux, if_neg (by simp [h c (List.mem_cons_self c cs)]), if_pos rfl]
    exact ih (fun d hd => h d (List.mem_cons_of_mem _ hd))

/-- The comparator of line 122 is antisymmetric under argument swap. -/
theorem jsCompare_swap (a b : PostMeta) : jsCompare b a = - jsCompare a b := by
  unfold jsCompare
  cases jsToNumber a.id <;> cases jsToNumber b.id <;> simp [Int.neg_sub]

/-- The head of an insertion is the new element or the old head. -/
theorem jsInsert_head? (x : PostMeta) (s : List PostMeta) :
    (jsInsert x s).head? = some x ∨ (jsInsert x s).head? = s.head? := by
  cases s with
  | nil => exact Or.inl rfl
  | cons y ys =>
    rw [jsInsert]
    split
    · exact Or.inl rfl
    · exact Or.inr rfl

/-- Insertion preserves adjacent comparator-sortedness. -/
theorem chain'_jsInsert (x : PostMeta) (s : List PostMeta)
    (h : List.Chain' (fun a b => jsCompare a b ≤ 0) s) :
    List.Chain' (fun a b => jsCompare a b ≤ 0) (jsInsert x s) := by
  induction s with
  | nil => simp [jsInsert]
  | cons y ys ih =>
    rw [jsInsert]
    rcases List.chain'_cons'.mp h with ⟨hhead, htail⟩
    split
    · rename_i hle
      refine List.chain'_cons'.mpr ⟨?_, h⟩
      intro z hz
      simp only [List.head?_cons, Option.mem_def, Option.some.injEq] at hz
      subst hz
      exact hle
    · rename_i hgt
      refine List.chain'_cons'.mpr ⟨?_, ih htail⟩
      intro z hz
      rcases jsInsert_head? x ys with hh | hh
      · rw [hh] at hz
        simp only [Option.mem_def, Option.some.injEq] at hz
        subst hz
        have hs := jsCompare_swap x y
        omega
      · rw [hh] at hz
        exact hhead z hz

/-- The modelled `Array.prototype.sort` output is sorted by the
comparator on every adjacent pair. -/
theorem chain'_jsSort (l : List PostMeta) :
    List.Chain' (fun a b => jsCompare a b ≤ 0) (jsSort l) := by
  induction l with
  | nil => simp [jsSort]
  | cons x xs ih => exact chain'_jsInsert x (jsSort xs) ih

/-- Comparator-sortedness plus numeric ids gives the claimed
descending-numeric comparison on adjacent pairs. -/
theorem chain'_numGe_of_chain'_compare (posts : List PostMeta)
    (hc : List.Chain' (fun a b => jsCompare a b ≤ 0) posts)
    (hnum : ∀ p ∈ posts, (jsToNumber p.id).isSome = true) :
    List.Chain' (fun a b => jsNumGeB a.id b.id = true) posts := by
  induction posts with
  | nil => simp
  | cons x xs ih =>
    rcases List.chain'_cons'.mp hc with ⟨hhead, htail⟩
    refine List.chain'_cons'.mpr ⟨?_, ih htail (fun p hp => hnum p (List.mem_cons_of_mem _ hp))⟩
    intro z hz
    have hxnum := hnum x (List.mem_cons_self x xs)
    have hznum : (jsToNumber z.id).isSome = true := by
      rcases xs with _ | ⟨w, ws⟩
      · simp at hz
      · simp only [List.head?_cons, Option.mem_def, Option.some.injEq] at hz
        subst hz
        exact hnum _ (List.mem_cons_of_mem _ (List.mem_cons_self _ _))
    have hcmp := hhead z hz
    rcases hx : jsToNumber x.id with _ | nx
    · rw [hx] at hxnum; simp at hxnum
    rcases hz' : jsToNumber z.id with _ | nz
    · rw [hz'] at hznum; simp at hznum
    rw [jsCompare, hz', hx] at hcmp
    simp only [jsNumGeB, hx, hz']
    simp only at hcmp
    simp
    omega

/-- A failing file makes the `Promise.all` join fail, and when every other
file succeeds the surfaced error is exactly the failing file's error. -/
theorem collectPosts_error (files : List (String × Option RawHeader))
    (f : String × Option RawHeader) (e : String)
    (hmem : f ∈ files) (herr : processFile f = .error e)
    (hothers : ∀ g ∈ files, g = f ∨ ∃ m, processFile g = .ok m) :
    collectPosts files = .error e := by
  induction files with
  | nil => cases hmem
  | cons a rest ih =>
    rcases hothers a (List.mem_cons_self a rest) with ha | ⟨m, hm⟩
    · subst ha
      rw [collectPosts, herr]
      rfl
    · rcases List.mem_cons.mp hmem with hfa | hfr
      · rw [hfa] at herr
        rw [herr] at hm
        cases hm
      · rw [collectPosts, hm]
        have := ih hfr (fun g hg => hothers g (List.mem_cons_of_mem _ hg))
        rw [this]
        rfl

/-- Strings with equal character lists are equal. -/
theorem string_eq_of_data_eq {a b : String} (h : a.data = b.data) : a = b := by
  cases a
  cases b
  exact congrArg String.mk h

/-- Rebuilding a string from its character list is the identity. -/
theorem string_mk_data (s : String) : String.mk s.data = s := by
  cases s
  rfl

/-- Mapping a function that fixes every element is the identity. -/
theorem map_id_of_forall {f : Char → Char} :
    ∀ l : List Char, (∀ c ∈ l, f c = c) → l.map f = l
  | [], _ => rfl
  | c :: cs, h => by
    rw [List.map_cons, h c (List.mem_cons_self c cs),
      map_id_of_forall cs (fun d hd => h d (List.mem_cons_of_mem _ hd))]

/-- The character list of a slug: the id, the joining hyphen, the
transformed title. -/
theorem slugify_data (f t : String) :
    (slugify f t).data = (filenameToId f).data ++ '-' :: (slugedTitle t).data := by
  show ((filenameToId f ++ "-") ++ slugedTitle t).data = _
  rw [String.data_append, String.data_append]
  simp [List.append_assoc]

/-! ## Claim theorems -/

/-- C10: the id-schema check in `getFilename` never rejects any input —
for every slug (including the empty string and a slug starting with a
hyphen) the leading-segment regex yields a string, the id schema accepts
it, and `getFilename` totally returns that segment plus the file
extension; step 1 of `getPost` cannot fail with a malformed-slug error. -/
theorem c10_getFilename_total :
    (∀ slug, getFilenameE slug = .ok (⟨slug.data.takeWhile (· ≠ '-')⟩ ++ fileExtension)) ∧
    getFilenameE "" = .ok fileExtension ∧
    getFilenameE "-abc" = .ok fileExtension :=
  ⟨getFilenameE_eq, rfl, rfl⟩

/-- C5: `slugify(filename, title)` equals
`filenameToId(filename) ++ "-" ++ t'` where `t'` is the title lowercased
with every maximal run of characters outside `[a-z0-9]` replaced by one
hyphen (spec-side formulation `specTitleTransform`); in particular the
file `001.mdx` with title "Hello World" slugs to "001-hello-world". -/
theorem c5_slugify_spec :
    (∀ f t, slugify f t = filenameToId f ++ "-" ++ specTitleTransform t) ∧
    slugify "001.mdx" "Hello World" = "001-hello-world" := by
  constructor
  · intro f t
    show filenameToId f ++ "-" ++ slugedTitle t = _
    rw [show slugedTitle t = specTitleTransform t from
      congrArg String.mk (collapseAux_eq_specCollapse _)]
  · rfl

/-- C6: a raw header missing exactly one required field fails validation
with the message naming that field; a header with the four required fields
present as strings and `github` absent is accepted; an absent header fails
with "Post not found". -/
theorem c6_frontmatter_validation :
    (∀ d de a g, parseFrontmatter (some ⟨none, some (.jstr d), some (.jstr de), some (.jstr a), g⟩)
        = .error "Title is required") ∧
    (∀ t de a g, parseFrontmatter (some ⟨some (.jstr t), none, some (.jstr de), some (.jstr a), g⟩)
        = .error "Date is required") ∧
    (∀ t d a g, parseFrontmatter (some ⟨some (.jstr t), some (.jstr d), none, some (.jstr a), g⟩)
        = .error "Description is required") ∧
    (∀ t d de g, parseFrontmatter (some ⟨some (.jstr t), some (.jstr d), some (.jstr de), none, g⟩)
        = .error "Author is required") ∧
    (∀ t d de a, parseFrontmatter (some ⟨some (.jstr t), some (.jstr d), some (.jstr de), some (.jstr a), none⟩)
        = .ok ⟨t, d, de, a, none⟩) ∧
    parseFrontmatter none = .error "Post not found" :=
  ⟨fun _ _ _ _ => rfl, fun _ _ _ _ => rfl, fun _ _ _ _ => rfl,
   fun _ _ _ _ => rfl, fun _ _ _ _ => rfl, rfl⟩

/-- C9 counterexample: `"A"` does not end with the file extension, yet
`filenameToId` lowercases it, so the claimed no-op fails. -/
theorem c9_counterexample :
    fileExtension.data.isSuffixOf ("A" : String).data = false ∧
    filenameToId "A" ≠ "A" := by decide

/-- C9 (amended): `filenameToId` is a no-op on a string that is unchanged
by lowercasing and does not contain the file extension as a substring
(the code lowercases and removes the first occurrence anywhere, not just
a suffix). -/
theorem c9_amended (id : String)
    (hlow : ∀ c ∈ id.data, jsCharLower c = c)
    (hsub : hasSub fileExtension.data id.data = false) :
    filenameToId id = id := by
  unfold filenameToId jsReplaceFirst jsToLower
  show String.mk (jsReplaceFirstAux fileExtension.data (id.data.map jsCharLower)) = id
  rw [map_id_of_forall id.data hlow, jsReplaceFirstAux_of_not_hasSub _ _ hsub,
    string_mk_data]

/-- C9 witness: the amended no-op law applies to the id "001". -/
theorem c9_witness :
    (∀ c ∈ ("001" : String).data, jsCharLower c = c) ∧
    hasSub fileExtension.data ("001" : String).data = false ∧
    filenameToId "001" = "001" :=
  ⟨by decide, by decide, c9_amended "001" (by decide) (by decide)⟩

/-- C3 counterexample: the title "!" contains no alphanumeric character,
but the slug is `id ++ "--"`, not `id ++ "-"` — the regex turns the
nonempty title into a single hyphen rather than the empty string, and the
joining hyphen is added on top. -/
theorem c3_counterexample :
    (∀ c ∈ ("!" : String).data, isSlugKeep (jsCharLower c) = false) ∧
    slugify "001.mdx" "!" ≠ filenameToId "001.mdx" ++ "-" := by decide

/-- C3 (amended): for a title with no alphanumeric characters the slug is
`id ++ "-"` only when the title is empty; a nonempty such title yields
`id ++ "--"`.  Either way the result is accepted as-is, not an error. -/
theorem c3_amended (f t : String)
    (h : ∀ c ∈ t.data, isSlugKeep (jsCharLower c) = false) :
    slugify f t = filenameToId f ++ (if t.data = [] then "-" else "--") := by
  apply string_eq_of_data_eq
  rw [slugify_data, String.data_append]
  cases ht : t.data with
  | nil =>
    rw [if_pos rfl]
    show (filenameToId f).data ++ '-' :: (collapseAux false (t.data.map jsCharLower)) = _
    rw [ht]
    rfl
  | cons c cs =>
    rw [if_neg (by simp)]
    show (filenameToId f).data ++ '-' :: (collapseAux false (t.data.map jsCharLower)) = _
    rw [ht, List.map_cons, collapseAux,
      if_neg (by simp [h c (ht ▸ List.mem_cons_self c cs)]), if_neg (by simp)]
    rw [collapseAux_true_of_all_nonkeep _ (fun d hd => by
      rcases List.mem_map.mp hd with ⟨d₀, hd₀, rfl⟩
      exact h d₀ (ht ▸ List.mem_cons_of_mem _ hd₀))]

/-- C3 witness: the amended law applied to the file "001.mdx" and the
nonempty alphanumeric-free title "!". -/
theorem c3_witness :
    (∀ c ∈ ("!" : String).data, isSlugKeep (jsCharLower c) = false) ∧
    slugify "001.mdx" "!" = filenameToId "001.mdx" ++ (if ("!" : String).data = [] then "-" else "--") :=
  ⟨by decide, c3_amended "001.mdx" "!" (by decide)⟩

/-- C1 counterexample: for the filename "001" (no extension),
`filenameToId` is hyphen-free, yet the round trip appends the extension
and returns "001.mdx", not "001". -/
theorem c1_counterexample :
    '-' ∉ (filenameToId "001").data ∧
    getFilenameE (slugify "001" "x") = .ok "001.mdx" ∧
    ("001.mdx" : String) ≠ "001" :=
  ⟨by decide, rfl, by decide⟩

/-- C1 (amended): recovering the filename from the slug is a left inverse
of slug derivation for filenames of the form `id ++ extension`: if
`filenameToId f` contains no hyphen and `filenameToId f ++ fileExtension
= f`, then `getFilename (slugify f t) = f` for every title `t`. -/
theorem c1_roundtrip (f t : String)
    (hnh : '-' ∉ (filenameToId f).data)
    (hext : filenameToId f ++ fileExtension = f) :
    getFilenameE (slugify f t) = .ok f := by
  rw [getFilenameE_eq]
  rw [show String.mk ((slugify f t).data.takeWhile (· ≠ '-')) = filenameToId f by
    rw [slugify_data, takeWhile_append_no_hyphen _ _ hnh, string_mk_data]]
  rw [hext]

/-- C1 witness: the round trip recovers "001.mdx" from its slug. -/
theorem c1_witness :
    '-' ∉ (filenameToId "001.mdx").data ∧
    filenameToId "001.mdx" ++ fileExtension = "001.mdx" ∧
    getFilenameE (slugify "001.mdx" "Hello World") = .ok "001.mdx" :=
  ⟨by decide, by decide, c1_roundtrip "001.mdx" "Hello World" (by decide) (by decide)⟩

/-- C2 counterexample: `getPost` succeeds on a file whose header omits the
required `author` field — no schema validation error is raised, although
the same header-derived metadata would fail the extended schema. -/
theorem c2_counterexample :
    getPostCore
        [("001.mdx", ⟨some ⟨some (.jstr "T"), some (.jstr "2024-01-01"),
          some (.jstr "d"), none, none⟩, "body"⟩)] "001-x"
      = .ok ⟨some ⟨some (.jstr "T"), some (.jstr "2024-01-01"),
          some (.jstr "d"), none, none⟩, "body"⟩ ∧
    metaParse ⟨some (.jstr "T"), some (.jstr "2024-01-01"), some (.jstr "d"),
        none, none, none, none⟩ = .error "Author is required" :=
  ⟨rfl, rfl⟩

/-- C2 (amended): `getPost` performs no runtime schema validation — the
`DocumentMeta` typing of the compiled result is a compile-time assertion
only.  Whenever the file located from the slug's leading segment exists,
`getPost` returns the compiled result unchanged, even if required header
fields are missing or invalid. -/
theorem c2_no_validation (files : List (String × MdxFile)) (slug : String)
    (file : MdxFile)
    (h : files.lookup (⟨slug.data.takeWhile (· ≠ '-')⟩ ++ fileExtension) = some file) :
    getPostCore files slug = .ok file := by
  unfold getPostCore
  rw [getFilenameE_eq]
  show (match files.lookup (⟨slug.data.takeWhile (· ≠ '-')⟩ ++ fileExtension) with
    | none => Except.error "ENOENT"
    | some file => Except.ok file) = Except.ok file
  rw [h]

/-- C2 witness: `getPost` returns the stored compiled file for slug
"001-x" without validating its (author-less) header. -/
theorem c2_witness :
    ([("001.mdx", (⟨some ⟨some (.jstr "T"), some (.jstr "2024-01-01"),
        some (.jstr "d"), none, none⟩, "body"⟩ : MdxFile))].lookup
        (String.mk (("001-x" : String).data.takeWhile (· ≠ '-')) ++ fileExtension)
      = some ⟨some ⟨some (.jstr "T"), some (.jstr "2024-01-01"),
        some (.jstr "d"), none, none⟩, "body"⟩) ∧
    getPostCore [("001.mdx", ⟨some ⟨some (.jstr "T"), some (.jstr "2024-01-01"),
        some (.jstr "d"), none, none⟩, "body"⟩)] "001-x"
      = .ok ⟨some ⟨some (.jstr "T"), some (.jstr "2024-01-01"),
        some (.jstr "d"), none, none⟩, "body"⟩ :=
  ⟨rfl, c2_no_validation _ "001-x" _ rfl⟩

/-- C4 counterexample: a successful listing of two files with non-numeric
ids "b" and "a" is returned in directory order, and its adjacent pair does
not satisfy the claimed numeric-descending comparison (both coercions are
NaN). -/
theorem c4_counterexample :
    getPostsCore
        [("b.mdx", some ⟨some (.jstr "T"), some (.jstr "2024-01-01"),
            some (.jstr "d"), some (.jstr "a"), none⟩),
         ("a.mdx", some ⟨some (.jstr "T"), some (.jstr "2024-01-01"),
            some (.jstr "d"), some (.jstr "a"), none⟩)]
      = .ok [⟨"T", "2024-01-01", "d", "a", none, "b", "b-t"⟩,
             ⟨"T", "2024-01-01", "d", "a", none, "a", "a-t"⟩] ∧
    ¬ List.Chain' (fun x y => jsNumGeB x.id y.id = true)
        [(⟨"T", "2024-01-01", "d", "a", none, "b", "b-t"⟩ : PostMeta),
         ⟨"T", "2024-01-01", "d", "a", none, "a", "a-t"⟩] :=
  ⟨rfl, by simp only [List.chain'_pair]; decide⟩

/-- C4 (amended): when every id of a successful `getPosts` result coerces
to a number, the output is sorted by descending numeric id: on each
adjacent pair the earlier id's coercion is at least the later one's. -/
theorem c4_sorted_desc (files : List (String × Option RawHeader))
    (posts : List PostMeta)
    (h : getPostsCore files = .ok posts)
    (hnum : ∀ p ∈ posts, (jsToNumber p.id).isSome = true) :
    List.Chain' (fun a b => jsNumGeB a.id b.id = true) posts := by
  unfold getPostsCore at h
  cases hc : collectPosts files with
  | error e => rw [hc] at h; cases h
  | ok l =>
    rw [hc] at h
    injection h with h'
    subst h'
    exact chain'_numGe_of_chain'_compare _ (chain'_jsSort l) hnum

/-- C4 witness: a directory with files "002.mdx" and "001.mdx" lists in
the order 002, 001, and the amended sortedness law applies to it. -/
theorem c4_witness :
    getPostsCore
        [("002.mdx", some ⟨some (.jstr "T"), some (.jstr "2024-01-01"),
            some (.jstr "d"), some (.jstr "a"), none⟩),
         ("001.mdx", some ⟨some (.jstr "T"), some (.jstr "2024-01-01"),
            some (.jstr "d"), some (.jstr "a"), none⟩)]
      = .ok [⟨"T", "2024-01-01", "d", "a", none, "002", "002-t"⟩,
             ⟨"T", "2024-01-01", "d", "a", none, "001", "001-t"⟩] ∧
    List.Chain' (fun a b => jsNumGeB a.id b.id = true)
        [(⟨"T", "2024-01-01", "d", "a", none, "002", "002-t"⟩ : PostMeta),
         ⟨"T", "2024-01-01", "d", "a", none, "001", "001-t"⟩] :=
  ⟨rfl,
    c4_sorted_desc
      [("002.mdx", some ⟨some (.jstr "T"), some (.jstr "2024-01-01"),
          some (.jstr "d"), some (.jstr "a"), none⟩),
       ("001.mdx", some ⟨some (.jstr "T"), some (.jstr "2024-01-01"),
          some (.jstr "d"), some (.jstr "a"), none⟩)]
      [⟨"T", "2024-01-01", "d", "a", none, "002", "002-t"⟩,
       ⟨"T", "2024-01-01", "d", "a", none, "001", "001-t"⟩]
      rfl (by decide)⟩

/-- C7: the file `getPost` reads is determined solely by the slug's
leading pre-hyphen segment — two slugs with the same leading segment make
`getPost` behave identically on any directory — and the filename located
for "001-hello-world" is "001" plus the file extension. -/
theorem c7_read_by_leading_segment :
    (∀ files s₁ s₂, s₁.data.takeWhile (· ≠ '-') = s₂.data.takeWhile (· ≠ '-') →
        getPostCore files s₁ = getPostCore files s₂) ∧
    getFilenameE "001-hello-world" = .ok ("001" ++ fileExtension) := by
  constructor
  · intro files s₁ s₂ hseg
    unfold getPostCore
    rw [getFilenameE_eq, getFilenameE_eq, hseg]
  · rfl

/-- C7 witness: slugs "001-hello-world" and "001-other" resolve to the
same read on a concrete directory. -/
theorem c7_witness :
    ("001-hello-world" : String).data.takeWhile (· ≠ '-')
      = ("001-other" : String).data.takeWhile (· ≠ '-') ∧
    getPostCore [("001.mdx", ⟨none, "body"⟩)] "001-hello-world"
      = getPostCore [("001.mdx", ⟨none, "body"⟩)] "001-other" :=
  ⟨by decide, c7_read_by_leading_segment.1 _ "001-hello-world" "001-other" (by decide)⟩

/-- C8: `getPosts` is all-or-nothing — if one file's processing fails
with error `e` and every other file processes successfully, the whole
call fails with `e` and returns no partial results. -/
theorem c8_all_or_nothing (files : List (String × Option RawHeader))
    (f : String × Option RawHeader) (e : String)
    (hmem : f ∈ files) (herr : processFile f = .error e)
    (hothers : ∀ g ∈ files, g = f ∨ ∃ m, processFile g = .ok m) :
    getPostsCore files = .error e := by
  unfold getPostsCore
  rw [collectPosts_error files f e hmem herr hothers]

/-- C8 witness: a directory where "001.mdx" omits `author` while
"002.mdx" is valid makes the whole listing fail with "Author is
required". -/
theorem c8_witness :
    getPostsCore
        [("002.mdx", some ⟨some (.jstr "T"), some (.jstr "2024-01-01"),
            some (.jstr "d"), some (.jstr "a"), none⟩),
         ("001.mdx", some ⟨some (.jstr "T"), some (.jstr "2024-01-01"),
            some (.jstr "d"), none, none⟩)]
      = .error "Author is required" :=
  c8_all_or_nothing _
    ("001.mdx", some ⟨some (.jstr "T"), some (.jstr "2024-01-01"),
      some (.jstr "d"), none, none⟩)
    "Author is required"
    (by decide) rfl
    (by
      intro g hg
      rcases List.mem_cons.mp hg with h1 | h1
      · exact Or.inr ⟨⟨"T", "2024-01-01", "d", "a", none, "002", "002-t"⟩, by rw [h1]; rfl⟩
      · rcases List.mem_cons.mp h1 with h2 | h2
        · exact Or.inl h2
        · cases h2)

end Mdx

